import Mathlib

/-!
Verification of the logging contract of the firecracker repository.

The only executable logic supplied in the repository sources is
`tests/integration_tests/functional/test_logging.py` (the log-line format
checker `check_log_message_format`, the severity table `LOG_LEVELS` and the
audit-log message templates exercised by `test_api_requests_logs`), and the
dependency lists of `tools/devtool.py`.  Those are embedded below as
executable Lean functions over `List Char` (Python strings are modelled as
character lists; Python exceptions and failed assertions are modelled as
`false` / `none` results).  The producer side (the Rust logger's Render,
Emit and Configure operations) is not part of the supplied sources; it is
modelled from the specification, with each such definition marked
`Modelled from the spec:` in its documentation.
-/

set_option maxRecDepth 8000

namespace Firecracker

/-- Characters of a string literal; Python strings are modelled as `List Char`. -/
def chars (s : String) : List Char := s.data

/-- Python whitespace recognised by `str.split()` (ASCII subset). -/
def isPySpace (c : Char) : Bool := c = ' ' || c = '\t' || c = '\n' || c = '\r'

/-- Accumulator-based worker for `pyWSplit`. -/
def pyWSplitAux : List Char → List Char → List (List Char)
  | [], acc => if acc.isEmpty then [] else [acc.reverse]
  | c :: cs, acc =>
    if isPySpace c then
      if acc.isEmpty then pyWSplitAux cs [] else acc.reverse :: pyWSplitAux cs []
    else pyWSplitAux cs (c :: acc)

/-- Python `str.split()` with no argument: split on whitespace runs, dropping
empty tokens. -/
def pyWSplit (l : List Char) : List (List Char) := pyWSplitAux l []

/-- Accumulator-based worker for `pySplitC`. -/
def pySplitCAux (sep : Char) : List Char → List Char → List (List Char)
  | [], acc => [acc.reverse]
  | c :: cs, acc =>
    if c = sep then acc.reverse :: pySplitCAux sep cs []
    else pySplitCAux sep cs (c :: acc)

/-- Python `str.split(sep)` for a one-character separator `sep`. -/
def pySplitC (sep : Char) (l : List Char) : List (List Char) := pySplitCAux sep l []

/-- Python slicing `s[1:-1]`: everything but the first and last character. -/
def pySlice1m1 (l : List Char) : List Char := (l.drop 1).dropLast

/-- Every character is an ASCII decimal digit. -/
def allDigitsB (l : List Char) : Bool := l.all Char.isDigit

/-- Python `str.isnumeric()`, restricted to ASCII decimal digits. -/
def pyIsNumeric (l : List Char) : Bool := !l.isEmpty && allDigitsB l

/-- One step of decimal accumulation. -/
def pyStep (a : Nat) (c : Char) : Nat := 10 * a + (c.toNat - 48)

/-- Numeric value of a string of decimal digits. -/
def pyIntVal (l : List Char) : Nat := l.foldl pyStep 0

/-- Python `int(str)`: an optional single sign followed by a non-empty run of
decimal digits (Python's further leniencies - underscores between digits,
surrounding whitespace, non-ASCII digits - cannot occur in the
whitespace-free tokens this development feeds to it and are not modelled). -/
def pyInt (l : List Char) : Option Int :=
  match l with
  | [] => none
  | c :: rest =>
    if c = '+' then (if pyIsNumeric rest then some ((pyIntVal rest : Nat) : Int) else none)
    else if c = '-' then (if pyIsNumeric rest then some (-((pyIntVal rest : Nat) : Int)) else none)
    else if pyIsNumeric (c :: rest) then some ((pyIntVal (c :: rest) : Nat) : Int) else none

/-- Python `str.upper()` (ASCII). -/
def pyUpper (l : List Char) : List Char := l.map Char.toUpper

/-- The character of a decimal digit. -/
def digitChar10 : Nat → Char
  | 0 => '0' | 1 => '1' | 2 => '2' | 3 => '3' | 4 => '4'
  | 5 => '5' | 6 => '6' | 7 => '7' | 8 => '8' | 9 => '9'
  | _ => '*'

/-- Fuelled decimal rendering (most significant digit first). -/
def natCharsAux : Nat → Nat → List Char
  | 0, _ => []
  | fuel + 1, n => if n = 0 then [] else natCharsAux fuel (n / 10) ++ [digitChar10 (n % 10)]

/-- Decimal rendering of a natural number with no leading zeros (`"0"` for 0). -/
def natChars (n : Nat) : List Char := if n = 0 then ['0'] else natCharsAux (n + 1) n

/-- Decimal rendering zero-padded to width `w`. -/
def pad (w : Nat) (n : Nat) : List Char :=
  List.replicate (w - (natChars n).length) '0' ++ natChars n

/-- A Python `datetime.datetime` value (fields as validated by its constructor). -/
structure PyDatetime where
  year : Int
  month : Int
  day : Int
  hour : Int
  minute : Int
  second : Int
  microsecond : Int
deriving DecidableEq

/-- The Gregorian leap-year rule used by Python's `datetime`. -/
def pyLeapYear (y : Int) : Bool :=
  y % 4 = 0 && (y % 100 ≠ 0 || y % 400 = 0)

/-- Days in a month, as validated by `datetime.datetime`. -/
def pyDaysInMonth (y m : Int) : Int :=
  if m = 2 then (if pyLeapYear y then 29 else 28)
  else if m = 1 || m = 3 || m = 5 || m = 7 || m = 8 || m = 10 || m = 12 then 31
  else 30

/-- The `datetime.datetime(...)` constructor with its range validation
(`ValueError` on violation is modelled as `none`). -/
def pyDatetime (y mo d h mi s us : Int) : Option PyDatetime :=
  if 1 ≤ y ∧ y ≤ 9999 ∧ 1 ≤ mo ∧ mo ≤ 12 ∧ 1 ≤ d ∧ d ≤ pyDaysInMonth y mo ∧
     0 ≤ h ∧ h ≤ 23 ∧ 0 ≤ mi ∧ mi ≤ 59 ∧ 0 ≤ s ∧ s ≤ 59 ∧
     0 ≤ us ∧ us ≤ 999999
  then some ⟨y, mo, d, h, mi, s, us⟩ else none

/-- Python `datetime` comparison: lexicographic on the seven fields. -/
def dtLe (a b : PyDatetime) : Bool :=
  if a.year ≠ b.year then decide (a.year < b.year)
  else if a.month ≠ b.month then decide (a.month < b.month)
  else if a.day ≠ b.day then decide (a.day < b.day)
  else if a.hour ≠ b.hour then decide (a.hour < b.hour)
  else if a.minute ≠ b.minute then decide (a.minute < b.minute)
  else if a.second ≠ b.second then decide (a.second < b.second)
  else decide (a.microsecond ≤ b.microsecond)

/-- `LOG_LEVELS` from `test_logging.py`: maps log levels to numeric values. -/
def LOG_LEVELS : List (List Char × Nat) :=
  [(chars "ERROR", 0), (chars "WARN", 1), (chars "INFO", 2), (chars "DEBUG", 3), (chars "TRACE", 4)]

/-- Dictionary lookup in `LOG_LEVELS` (`KeyError` modelled as `none`). -/
def logLevelsLookup (k : List Char) : Option Nat :=
  (LOG_LEVELS.find? (fun p => decide (p.1 = k))).map (fun p => p.2)

/-- The timestamp-parsing portion of `check_log_message_format`: splits the
first whitespace token on `T`, `-`, `:` and `.`, asserts the component
widths, converts with `int(...)` and builds the `datetime.datetime` value
(with `microsecond=int(nanosecond) // 1000`).  Any failed assertion,
unpacking error, `ValueError` from `int` or from the `datetime` constructor
is `none`. -/
def logTimeOf (timestamp : List Char) : Option PyDatetime :=
  match pySplitC 'T' timestamp with
  | [date, time] =>
    match pySplitC '-' date with
    | [year, month, day] =>
      if month.length = 2 ∧ day.length = 2 then
        match pySplitC ':' time with
        | [hour, minute, secs] =>
          match pySplitC '.' secs with
          | [second, nanosecond] =>
            if hour.length = 2 ∧ minute.length = 2 ∧ second.length = 2 ∧ nanosecond.length = 9 then
              match pyInt year, pyInt month, pyInt day, pyInt hour, pyInt minute, pyInt second, pyInt nanosecond with
              | some y, some mo, some d, some h, some mi, some s, some ns =>
                pyDatetime y mo d h mi s (Int.fdiv ns 1000)
              | _, _, _, _, _, _, _ => none
            else none
          | _ => none
        | _ => none
      else none
    | _ => none
  | _ => none

/-- The `assert log_time <= now` step of `check_log_message_format` combined
with `logTimeOf`. -/
def checkTimestamp (now : PyDatetime) (timestamp : List Char) : Bool :=
  match logTimeOf timestamp with
  | some logTime => dtLe logTime now
  | none => false

/-- The `if show_origin:` suffix of `check_log_message_format`: consume a
`file` field and a `line` field and assert `line.isnumeric()`. -/
def checkOriginPart (show_origin : Bool) (fields : List (List Char)) : Bool :=
  if show_origin then
    match fields with
    | _file :: line :: _ => pyIsNumeric line
    | _ => false
  else true

/-- The bracketed-tag portion of `check_log_message_format`: slice off the
first and last character of the second whitespace token, split on `:` and
consume the fields positionally (`instance_id`, `thread_name`, optional
`level`, optional `file` and `line`).  A `StopIteration` from an exhausted
iterator or a failed assertion is `false`. -/
def checkTag (instance_id log_level : List Char) (show_level show_origin : Bool)
    (data : List Char) : Bool :=
  match pySplitC ':' (pySlice1m1 data) with
  | [] => false
  | log_instance_id :: rest =>
    decide (log_instance_id = instance_id) &&
    match rest with
    | [] => false
    | _thread_name :: rest2 =>
      if show_level then
        match rest2 with
        | [] => false
        | level :: rest3 =>
          (logLevelsLookup level).isSome &&
          (match logLevelsLookup level, logLevelsLookup (pyUpper log_level) with
           | some a, some b => decide (a ≤ b)
           | _, _ => false) &&
          checkOriginPart show_origin rest3
      else checkOriginPart show_origin rest2

/-- `check_log_message_format` from `test_logging.py`.  `now` stands for the
`datetime.datetime.now()` sampled at the start of the check.  The result is
`true` when every assertion passes and no exception is raised. -/
def check_log_message_format (now : PyDatetime) (log_str : List Char)
    (instance_id log_level : List Char) (show_level show_origin : Bool) : Bool :=
  match pyWSplit log_str with
  | timestamp :: data :: _ =>
    checkTimestamp now timestamp &&
    checkTag instance_id log_level show_level show_origin data
  | _ => false

/-- Severity levels, most severe first (spec data model, realised in the
sources by the `LOG_LEVELS` table). -/
inductive Severity
  | ERROR
  | WARN
  | INFO
  | DEBUG
  | TRACE
deriving DecidableEq

/-- Numeric rank of a severity: smaller is more severe. -/
def rank : Severity → Nat
  | .ERROR => 0
  | .WARN => 1
  | .INFO => 2
  | .DEBUG => 3
  | .TRACE => 4

/-- Upper-case rendering of a severity name. -/
def levelName : Severity → List Char
  | .ERROR => chars "ERROR"
  | .WARN => chars "WARN"
  | .INFO => chars "INFO"
  | .DEBUG => chars "DEBUG"
  | .TRACE => chars "TRACE"

/-- The severity named by an upper-case string, if any. -/
def levelOfName (l : List Char) : Option Severity :=
  if l = chars "ERROR" then some .ERROR
  else if l = chars "WARN" then some .WARN
  else if l = chars "INFO" then some .INFO
  else if l = chars "DEBUG" then some .DEBUG
  else if l = chars "TRACE" then some .TRACE
  else none

/-- Modelled from the spec: `IsEnabled(severity, threshold) = rank(severity) ≤
rank(threshold)` - the severity-filtering policy of the Logger, which is not
part of the supplied sources. -/
def IsEnabled (s t : Severity) : Bool := decide (rank s ≤ rank t)

/-- A wall-clock instant with nanosecond precision, as carried by a log
record. -/
structure Timestamp where
  year : Nat
  month : Nat
  day : Nat
  hour : Nat
  minute : Nat
  second : Nat
  nanosecond : Nat
deriving DecidableEq

/-- The component widths a timestamp must satisfy so that its fixed-width
rendering round-trips. -/
def Timestamp.widthsOK (t : Timestamp) : Prop :=
  t.month < 100 ∧ t.day < 100 ∧ t.hour < 100 ∧ t.minute < 100 ∧ t.second < 100 ∧
  t.nanosecond < 1000000000

/-- A timestamp denoting a real calendar instant (the ranges validated by
Python's `datetime` constructor). -/
def Timestamp.valid (t : Timestamp) : Prop :=
  1 ≤ t.year ∧ t.year ≤ 9999 ∧ 1 ≤ t.month ∧ t.month ≤ 12 ∧ 1 ≤ t.day ∧
  (t.day : Int) ≤ pyDaysInMonth (t.year : Int) (t.month : Int) ∧
  t.hour ≤ 23 ∧ t.minute ≤ 59 ∧ t.second ≤ 59 ∧ t.nanosecond ≤ 999999999

/-- The `datetime` value (microsecond truncation) of a record timestamp. -/
def tsToDT (t : Timestamp) : PyDatetime :=
  ⟨(t.year : Int), (t.month : Int), (t.day : Int), (t.hour : Int), (t.minute : Int),
   (t.second : Int), Int.fdiv (t.nanosecond : Int) 1000⟩

/-- Modelled from the spec: the rendered timestamp
`YYYY-MM-DDTHH:MM:SS.NNNNNNNNN` - year variable width, month, day, hour,
minute and second two digits, fractional seconds nine digits, no timezone
suffix.  The renderer itself is not part of the supplied sources. -/
def renderTimestamp (t : Timestamp) : List Char :=
  natChars t.year ++ '-' :: pad 2 t.month ++ '-' :: pad 2 t.day ++
  'T' :: pad 2 t.hour ++ ':' :: pad 2 t.minute ++ ':' :: pad 2 t.second ++
  '.' :: pad 9 t.nanosecond

/-- The `(show_level, show_origin)` toggle pair of a logger configuration. -/
structure ToggleConfig where
  show_level : Bool
  show_origin : Bool
deriving DecidableEq

/-- One emitted log event (spec data model): the origin is always captured,
and rendered only when `show_origin` is enabled. -/
structure LogRecord where
  ts : Timestamp
  instance_id : List Char
  thread_name : List Char
  severity : Severity
  file : List Char
  line : Nat
  message : List Char
deriving DecidableEq

/-- Modelled from the spec: the bracketed tag - colon-separated fields, in
this exact order: `instance_id`, `thread_name`, then the upper-case level
name iff `show_level`, then `file` and `line` iff `show_origin`.  The
renderer itself is not part of the supplied sources. -/
def renderTag (r : LogRecord) (cfg : ToggleConfig) : List Char :=
  let inner := r.instance_id ++ ':' :: r.thread_name
      ++ (if cfg.show_level then ':' :: levelName r.severity else [])
      ++ (if cfg.show_origin then ':' :: (r.file ++ ':' :: natChars r.line) else [])
  '[' :: (inner ++ [']'])

/-- Modelled from the spec: `Render(record, config)` - one line, two
space-separated leading tokens followed by the untouched message. -/
def render (r : LogRecord) (cfg : ToggleConfig) : List Char :=
  renderTimestamp r.ts ++ ' ' :: (renderTag r cfg ++ ' ' :: r.message)

/-- The outcome of parsing one rendered line: the fields the configuration
renders. -/
structure ParsedRecord where
  ts : Timestamp
  instance_id : List Char
  thread_name : List Char
  level : Option Severity
  origin : Option (List Char × Nat)
  message : List Char
deriving DecidableEq

/-- A log record restricted to the fields a toggle configuration renders. -/
def restrict (r : LogRecord) (cfg : ToggleConfig) : ParsedRecord :=
  ⟨r.ts, r.instance_id, r.thread_name,
   if cfg.show_level then some r.severity else none,
   if cfg.show_origin then some (r.file, r.line) else none,
   r.message⟩

/-- Modelled from the spec: the timestamp grammar used by `Parse` - the token
must split into year-month-day and hour-minute-second.nanosecond components
of the exact digit widths. -/
def tsOfTok (tok : List Char) : Option Timestamp :=
  match pySplitC 'T' tok with
  | [date, time] =>
    match pySplitC '-' date with
    | [year, month, day] =>
      match pySplitC ':' time with
      | [hour, minute, secs] =>
        match pySplitC '.' secs with
        | [second, nanosecond] =>
          if pyIsNumeric year = true ∧
             month.length = 2 ∧ pyIsNumeric month = true ∧
             day.length = 2 ∧ pyIsNumeric day = true ∧
             hour.length = 2 ∧ pyIsNumeric hour = true ∧
             minute.length = 2 ∧ pyIsNumeric minute = true ∧
             second.length = 2 ∧ pyIsNumeric second = true ∧
             nanosecond.length = 9 ∧ pyIsNumeric nanosecond = true
          then some ⟨pyIntVal year, pyIntVal month, pyIntVal day, pyIntVal hour,
                     pyIntVal minute, pyIntVal second, pyIntVal nanosecond⟩
          else none
        | _ => none
      | _ => none
    | _ => none
  | _ => none

/-- Modelled from the spec: the origin fields of `Parse`, consumed
positionally iff origin display is expected; `line` must be numeric. -/
def parseOriginFields (cfg : ToggleConfig) (fields : List (List Char)) :
    Option (Option (List Char × Nat)) :=
  if cfg.show_origin then
    match fields with
    | f :: ln :: _ => if pyIsNumeric ln = true then some (some (f, pyIntVal ln)) else none
    | _ => none
  else some none

/-- Modelled from the spec: the tag portion of `Parse` - both brackets must be
present, the interior is colon-split, and the fields are consumed
positionally according to the caller's configuration; a present level must
be one of the five known names. -/
def parseTag (cfg : ToggleConfig) (tok : List Char) :
    Option (List Char × List Char × Option Severity × Option (List Char × Nat)) :=
  match tok with
  | '[' :: rest =>
    if rest.getLast? = some ']' then
      match pySplitC ':' rest.dropLast with
      | id :: thread :: rest2 =>
        if cfg.show_level then
          match rest2 with
          | lv :: rest3 =>
            match levelOfName lv with
            | some sev => (parseOriginFields cfg rest3).map (fun o => (id, thread, some sev, o))
            | none => none
          | [] => none
        else (parseOriginFields cfg rest2).map (fun o => (id, thread, none, o))
      | _ => none
    else none
  | _ => none

/-- Modelled from the spec: `Parse(line)` - first whitespace token is the
timestamp, second is the bracketed tag, the remainder is the message; the
parse fails when the timestamp, once parsed, lies strictly in the future
relative to the observation instant `now`. -/
def parse (cfg : ToggleConfig) (now : PyDatetime) (l : List Char) : Option ParsedRecord :=
  match tsOfTok (l.takeWhile (fun c => c != ' ')) with
  | some ts =>
    if dtLe (tsToDT ts) now then
      match l.dropWhile (fun c => c != ' ') with
      | ' ' :: r2 =>
        match parseTag cfg (r2.takeWhile (fun c => c != ' ')) with
        | some (id, thread, lv, org) =>
          some ⟨ts, id, thread, lv, org, (r2.dropWhile (fun c => c != ' ')).drop 1⟩
        | none => none
      | _ => none
    else none
  | none => none

/-- Width-only well-formedness of a timestamp token: it splits into
year-month-day `T` hour-minute-second.nanosecond components whose character
widths are exactly those of the grammar (contents unconstrained). -/
def timestampWidthForm (timestamp : List Char) : Bool :=
  match pySplitC 'T' timestamp with
  | [date, time] =>
    match pySplitC '-' date with
    | [_year, month, day] =>
      decide (month.length = 2) && decide (day.length = 2) &&
      (match pySplitC ':' time with
       | [hour, minute, secs] =>
         match pySplitC '.' secs with
         | [second, nanosecond] =>
           decide (hour.length = 2) && decide (minute.length = 2) &&
           decide (second.length = 2) && decide (nanosecond.length = 9)
         | _ => false
       | _ => false)
    | _ => false
  | _ => false

/-- Digit well-formedness of a timestamp token: the widths of
`timestampWidthForm` and in addition every component (year included) is a
run of decimal digits. -/
def timestampDigitForm (timestamp : List Char) : Bool :=
  match pySplitC 'T' timestamp with
  | [date, time] =>
    match pySplitC '-' date with
    | [year, month, day] =>
      pyIsNumeric year && pyIsNumeric month && decide (month.length = 2) &&
      pyIsNumeric day && decide (day.length = 2) &&
      (match pySplitC ':' time with
       | [hour, minute, secs] =>
         match pySplitC '.' secs with
         | [second, nanosecond] =>
           pyIsNumeric hour && decide (hour.length = 2) &&
           pyIsNumeric minute && decide (minute.length = 2) &&
           pyIsNumeric second && decide (second.length = 2) &&
           pyIsNumeric nanosecond && decide (nanosecond.length = 9)
         | _ => false
       | _ => false)
    | _ => false
  | _ => false

/-- Modelled from the spec: Emit drops records whose severity rank exceeds
the threshold rank and renders the rest through the grammar; this lists the
lines appended to the sink for a batch of records.  The Logger itself is not
part of the supplied sources. -/
def emittedLines (threshold : Severity) (cfg : ToggleConfig) (rs : List LogRecord) :
    List (List Char) :=
  (rs.filter (fun r => IsEnabled r.severity threshold)).map (fun r => render r cfg)

/-- A logger configuration (spec data model). -/
structure LoggerConfig where
  path : List Char
  threshold : Severity
  show_level : Bool
  show_origin : Bool
deriving DecidableEq

/-- Process-wide logger state: the active configuration, if any, and the
lines written to sinks so far. -/
structure LoggerState where
  config : Option LoggerConfig
  written : List (List Char)
deriving DecidableEq

/-- The file-system view Configure consults: the set of existing paths. -/
structure FileSystem where
  existing : List (List Char)
deriving DecidableEq

/-- The OS error text for a missing path. -/
def noSuchFileMsg : List Char := chars "No such file or directory (os error 2)"

/-- `needle` occurs contiguously inside `hay`. -/
def containsSub (needle hay : List Char) : Prop :=
  ∃ pre post, hay = pre ++ needle ++ post

/-- Modelled from the spec: `Configure(sink_path, threshold, show_level,
show_origin)` opens the sink path, creating nothing; a non-existent path
fails immediately with the filesystem error preserving the OS error text,
and writes nothing.  The Logger itself is not part of the supplied
sources. -/
def configure (fs : FileSystem) (st : LoggerState) (path : List Char)
    (threshold : Severity) (show_level show_origin : Bool) :
    Except (List Char) LoggerState :=
  if path ∈ fs.existing then
    Except.ok { config := some ⟨path, threshold, show_level, show_origin⟩,
                written := st.written }
  else Except.error noSuchFileMsg

/-- HTTP methods appearing in the audit-log templates. -/
inductive ApiMethod
  | Put
  | Patch
  | Get
deriving DecidableEq

/-- Rendered method name. -/
def methodName : ApiMethod → List Char
  | .Put => chars "Put"
  | .Patch => chars "Patch"
  | .Get => chars "Get"

/-- Whether a method is mutating (carries a body on receipt). -/
def isMutating : ApiMethod → Bool
  | .Put => true
  | .Patch => true
  | .Get => false

/-- Modelled from the spec: the request-received audit message - mutating
methods include `with body <body-repr>`, GET does not, and requests on
`/mmds` omit the body per the mmds read/write convention observed. -/
def auditReceivedMessage (m : ApiMethod) (path body : List Char) : List Char :=
  let core := chars "The API server received a " ++ methodName m ++
    chars " request on \"" ++ path ++ chars "\""
  core ++ (if isMutating m && !decide (path = chars "/mmds")
           then chars " with body " ++ body else []) ++ chars "."

/-- Modelled from the spec: the error-completion audit message
`Received Error. Status code: <code> <reason-phrase>. Message: <fault-message>.` -/
def auditErrorMessage (code : Nat) (reason fault : List Char) : List Char :=
  chars "Received Error. Status code: " ++ natChars code ++ chars " " ++ reason ++
  chars ". Message: " ++ fault ++ chars "."

/-- `x86_dependencies` from `tools/devtool.py`: a Python list literal whose
adjacent string literals carry no separating commas, so they concatenate
into a single element. -/
def x86_dependencies : List String :=
  ["binutils-dev"
    ++ "clang"
    ++ "cmake"
    ++ "curl"
    ++ "file"
    ++ "g++"
    ++ "gcc"
    ++ "gcc-aarch64-linux-gnu"
    ++ "git"
    ++ "iperf3"
    ++ "iproute2"
    ++ "jq"
    ++ "libdw-dev"
    ++ "libiberty-dev"
    ++ "libssl-dev"
    ++ "libcurl4-openssl-dev"
    ++ "lsof"
    ++ "make"
    ++ "musl-tools"
    ++ "net-tools"
    ++ "openssh-client"
    ++ "pkgconf"
    ++ "python"
    ++ "python3"
    ++ "python3-dev"
    ++ "python3-pip"
    ++ "python3-venv"
    ++ "ruby-dev"
    ++ "zlib1g-dev"
    ++ "screen"
    ++ "tzdata"
    ++ "xz-utils"
    ++ "bc"
    ++ "flex"
    ++ "bison"]

/-- `aarch64_dependencies` from `tools/devtool.py`: likewise a single
concatenated element. -/
def aarch64_dependencies : List String :=
  ["binutils-dev"
    ++ "clang"
    ++ "cmake"
    ++ "curl"
    ++ "file"
    ++ "g++"
    ++ "gcc"
    ++ "git"
    ++ "iperf3"
    ++ "iproute2"
    ++ "jq"
    ++ "libbfd-dev"
    ++ "libcurl4-openssl-dev"
    ++ "libdw-dev"
    ++ "libfdt-dev"
    ++ "libiberty-dev"
    ++ "libssl-dev"
    ++ "lsof"
    ++ "make"
    ++ "musl-tools"
    ++ "net-tools"
    ++ "openssh-client"
    ++ "pkgconf"
    ++ "python"
    ++ "python3"
    ++ "python3-dev"
    ++ "python3-pip"
    ++ "python3-venv"
    ++ "zlib1g-dev"
    ++ "screen"
    ++ "tzdata"
    ++ "xz-utils"
    ++ "bc"
    ++ "flex"
    ++ "bison"]

/-- The individual package names written in `x86_dependencies`. -/
def x86_package_names : List String :=
  ["binutils-dev", "clang", "cmake", "curl", "file", "g++", "gcc",
   "gcc-aarch64-linux-gnu", "git", "iperf3", "iproute2", "jq", "libdw-dev",
   "libiberty-dev", "libssl-dev", "libcurl4-openssl-dev", "lsof", "make",
   "musl-tools", "net-tools", "openssh-client", "pkgconf", "python", "python3",
   "python3-dev", "python3-pip", "python3-venv", "ruby-dev", "zlib1g-dev",
   "screen", "tzdata", "xz-utils", "bc", "flex", "bison"]

/-- The individual package names written in `aarch64_dependencies`. -/
def aarch64_package_names : List String :=
  ["binutils-dev", "clang", "cmake", "curl", "file", "g++", "gcc", "git",
   "iperf3", "iproute2", "jq", "libbfd-dev", "libcurl4-openssl-dev",
   "libdw-dev", "libfdt-dev", "libiberty-dev", "libssl-dev", "lsof", "make",
   "musl-tools", "net-tools", "openssh-client", "pkgconf", "python", "python3",
   "python3-dev", "python3-pip", "python3-venv", "zlib1g-dev", "screen",
   "tzdata", "xz-utils", "bc", "flex", "bison"]

/-- Colon-join of a field list (the interior of a rendered tag). -/
def joinC : List (List Char) → List Char
  | [] => []
  | [x] => x
  | x :: y :: xs => x ++ ':' :: joinC (y :: xs)

/-- The colon-separated fields of a rendered tag, in order. -/
def tagFields (r : LogRecord) (cfg : ToggleConfig) : List (List Char) :=
  [r.instance_id, r.thread_name]
    ++ (if cfg.show_level then [levelName r.severity] else [])
    ++ (if cfg.show_origin then [r.file, natChars r.line] else [])

/-- A sample timestamp (the one in the checker's docstring example). -/
def ts0 : Timestamp := ⟨2023, 7, 19, 12, 10, 54, 123456789⟩

/-- A sample observation instant later than `ts0`. -/
def now0 : PyDatetime := ⟨2024, 1, 1, 0, 0, 0, 0⟩

/-- A sample log record. -/
def rec0 : LogRecord :=
  ⟨ts0, chars "fc_api", chars "fc_api", .INFO, chars "src/main.rs", 18,
   chars "yak shaving completed."⟩

/-! ## Helper lemmas: single-character splitting -/

theorem pySplitCAux_no (c : Char) : ∀ (l acc : List Char), c ∉ l →
    pySplitCAux c l acc = [acc.reverse ++ l] := by
  intro l
  induction l with
  | nil => intro acc _; simp [pySplitCAux]
  | cons x xs ih =>
    intro acc hx
    have hxc : ¬x = c := fun h => hx (h ▸ List.mem_cons_self x xs)
    have hxs : c ∉ xs := fun h => hx (List.mem_cons_of_mem x h)
    simp only [pySplitCAux, if_neg hxc, ih (x :: acc) hxs, List.reverse_cons,
      List.append_assoc, List.cons_append, List.nil_append]

theorem pySplitCAux_app (c : Char) : ∀ (a b acc : List Char), c ∉ a →
    pySplitCAux c (a ++ c :: b) acc = (acc.reverse ++ a) :: pySplitCAux c b [] := by
  intro a
  induction a with
  | nil => intro b acc _; simp [pySplitCAux]
  | cons x xs ih =>
    intro b acc hx
    have hxc : ¬x = c := fun h => hx (h ▸ List.mem_cons_self x xs)
    have hxs : c ∉ xs := fun h => hx (List.mem_cons_of_mem x h)
    simp only [List.cons_append, pySplitCAux, if_neg hxc]
    simpa [List.append_assoc] using ih b (x :: acc) hxs

theorem pySplitC_no {c : Char} {l : List Char} (h : c ∉ l) : pySplitC c l = [l] := by
  simpa [pySplitC] using pySplitCAux_no c l [] h

theorem pySplitC_app {c : Char} {a : List Char} (b : List Char) (h : c ∉ a) :
    pySplitC c (a ++ c :: b) = a :: pySplitC c b := by
  simpa [pySplitC] using pySplitCAux_app c a b [] h

theorem pySplitC_joinC : ∀ (fs : List (List Char)), fs ≠ [] →
    (∀ f ∈ fs, ':' ∉ f) → pySplitC ':' (joinC fs) = fs := by
  intro fs
  induction fs with
  | nil => intro h; exact absurd rfl h
  | cons x xs ih =>
    intro _ hni
    cases xs with
    | nil => exact pySplitC_no (hni x (List.mem_cons_self x []))
    | cons y ys =>
      have h1 : pySplitC ':' (x ++ ':' :: joinC (y :: ys)) =
          x :: pySplitC ':' (joinC (y :: ys)) :=
        pySplitC_app _ (hni x (List.mem_cons_self x (y :: ys)))
      have h2 : pySplitC ':' (joinC (y :: ys)) = y :: ys :=
        ih (by simp) (fun f hf => hni f (List.mem_cons_of_mem x hf))
      simp only [joinC, h1, h2]

/-! ## Helper lemmas: decimal rendering -/

theorem digitChar10_val : ∀ d, d < 10 → (digitChar10 d).toNat - 48 = d := by decide

theorem digitChar10_isDigit : ∀ d, d < 10 → (digitChar10 d).isDigit = true := by decide

theorem natCharsAux_zero : ∀ fuel, natCharsAux fuel 0 = [] := by
  intro fuel; cases fuel <;> simp [natCharsAux]

theorem foldl_pyStep_shift : ∀ (l : List Char) (a : Nat),
    l.foldl pyStep a = a * 10 ^ l.length + l.foldl pyStep 0 := by
  intro l
  induction l with
  | nil => intro a; simp
  | cons x xs ih =>
    intro a
    have h1 := ih (pyStep a x)
    have h2 := ih (pyStep 0 x)
    simp only [List.foldl_cons, List.length_cons] at *
    rw [h1, h2, pyStep, pyStep]
    ring

theorem natCharsAux_spec : ∀ (n fuel : Nat), n < fuel → 0 < n →
    natCharsAux fuel n ≠ [] ∧ allDigitsB (natCharsAux fuel n) = true ∧
    (natCharsAux fuel n).foldl pyStep 0 = n := by
  intro n
  induction n using Nat.strong_induction_on with
  | _ n ih =>
    intro fuel hfuel hn
    cases fuel with
    | zero => exact absurd hfuel (by omega)
    | succ f =>
      have hne : ¬n = 0 := by omega
      have hmod : n % 10 < 10 := Nat.mod_lt n (by norm_num)
      simp only [natCharsAux, if_neg hne]
      by_cases hq : n / 10 = 0
      · have hn10 : n < 10 := by omega
        have hnm : n % 10 = n := Nat.mod_eq_of_lt hn10
        rw [hq, natCharsAux_zero]
        refine ⟨by simp, ?_, ?_⟩
        · simp [allDigitsB, digitChar10_isDigit _ hmod]
        · simp [pyStep, hnm, digitChar10_val n hn10]
      · have hqlt : n / 10 < n := Nat.div_lt_self hn (by norm_num)
        have hqf : n / 10 < f := by omega
        obtain ⟨h1, h2, h3⟩ := ih (n / 10) hqlt f hqf (Nat.pos_of_ne_zero hq)
        refine ⟨by simp, ?_, ?_⟩
        · simp only [allDigitsB, List.all_append] at *
          simp [h2, digitChar10_isDigit _ hmod]
        · rw [List.foldl_append, foldl_pyStep_shift [digitChar10 (n % 10)] _]
          simp only [List.foldl_cons, List.foldl_nil, List.length_cons,
            List.length_nil, pow_succ, pow_zero, one_mul]
          rw [h3, pyStep, digitChar10_val _ hmod]
          omega

theorem natCharsAux_length : ∀ (n fuel k : Nat), n < fuel → n < 10 ^ k →
    (natCharsAux fuel n).length ≤ k := by
  intro n
  induction n using Nat.strong_induction_on with
  | _ n ih =>
    intro fuel k hfuel hk
    cases fuel with
    | zero => exact absurd hfuel (by omega)
    | succ f =>
      by_cases hn : n = 0
      · subst hn; simp [natCharsAux]
      · simp only [natCharsAux, if_neg hn]
        cases k with
        | zero => simp at hk; omega
        | succ k' =>
          have hqlt : n / 10 < n := Nat.div_lt_self (Nat.pos_of_ne_zero hn) (by norm_num)
          have hqf : n / 10 < f := by omega
          have hq10 : n / 10 < 10 ^ k' := by
            rw [Nat.div_lt_iff_lt_mul (by norm_num : 0 < 10)]
            calc n < 10 ^ (k' + 1) := hk
            _ = 10 ^ k' * 10 := by ring
          have := ih (n / 10) hqlt f k' hqf hq10
          simp only [List.length_append, List.length_cons, List.length_nil]
          omega

theorem natChars_ne_nil (n : Nat) : natChars n ≠ [] := by
  by_cases hn : n = 0
  · subst hn; simp [natChars]
  · have := (natCharsAux_spec n (n + 1) (by omega) (Nat.pos_of_ne_zero hn)).1
    simpa [natChars, if_neg hn] using this

theorem allDigitsB_natChars (n : Nat) : allDigitsB (natChars n) = true := by
  by_cases hn : n = 0
  · subst hn; simp [natChars, allDigitsB]
  · have := (natCharsAux_spec n (n + 1) (by omega) (Nat.pos_of_ne_zero hn)).2.1
    simpa [natChars, if_neg hn] using this

theorem pyIntVal_natChars (n : Nat) : pyIntVal (natChars n) = n := by
  by_cases hn : n = 0
  · subst hn; simp [natChars, pyIntVal, pyStep]
  · have := (natCharsAux_spec n (n + 1) (by omega) (Nat.pos_of_ne_zero hn)).2.2
    simpa [natChars, if_neg hn, pyIntVal] using this

theorem natChars_length_le {n k : Nat} (h : n < 10 ^ k) (hk : 0 < k) :
    (natChars n).length ≤ k := by
  by_cases hn : n = 0
  · subst hn; simpa [natChars] using hk
  · have := natCharsAux_length n (n + 1) k (by omega) h
    simpa [natChars, if_neg hn] using this

theorem pad_length {w n : Nat} (h : (natChars n).length ≤ w) : (pad w n).length = w := by
  simp only [pad, List.length_append, List.length_replicate]
  omega

theorem allDigitsB_pad (w n : Nat) : allDigitsB (pad w n) = true := by
  have h1 : allDigitsB (List.replicate (w - (natChars n).length) '0') = true := by
    simp only [allDigitsB, List.all_eq_true]
    intro x hx
    rw [List.eq_of_mem_replicate hx]
    decide
  have h2 := allDigitsB_natChars n
  simp only [pad, allDigitsB] at *
  simp [List.all_append, h1, h2]

theorem pyIsNumeric_pad (w n : Nat) : pyIsNumeric (pad w n) = true := by
  simp only [pyIsNumeric, allDigitsB_pad, Bool.and_true]
  cases hp : pad w n with
  | nil =>
    exact absurd (List.append_eq_nil.mp hp).2 (natChars_ne_nil n)
  | cons x xs => simp

theorem pyIsNumeric_natChars (n : Nat) : pyIsNumeric (natChars n) = true := by
  simp only [pyIsNumeric, allDigitsB_natChars, Bool.and_true]
  cases hp : natChars n with
  | nil => exact absurd hp (natChars_ne_nil n)
  | cons x xs => simp

theorem foldl_pyStep_replicate_zero : ∀ (k : Nat),
    (List.replicate k '0').foldl pyStep 0 = 0 := by
  intro k
  induction k with
  | zero => simp
  | succ k ih => simpa [List.replicate_succ, pyStep] using ih

theorem pyIntVal_pad (w n : Nat) : pyIntVal (pad w n) = n := by
  simp only [pad, pyIntVal, List.foldl_append]
  rw [foldl_pyStep_replicate_zero]
  exact pyIntVal_natChars n

theorem allDigitsB_mem {l : List Char} {c : Char} (h : allDigitsB l = true)
    (hc : c ∈ l) : c.isDigit = true :=
  List.all_eq_true.mp h c hc

theorem not_mem_of_digits {l : List Char} {c : Char} (h : allDigitsB l = true)
    (hc : c.isDigit = false) : c ∉ l := by
  intro hmem
  rw [allDigitsB_mem h hmem] at hc
  exact Bool.noConfusion hc

theorem pyIsNumeric_digits {l : List Char} (h : pyIsNumeric l = true) :
    allDigitsB l = true := by
  simp only [pyIsNumeric, Bool.and_eq_true] at h
  exact h.2

theorem pyInt_of_numeric {l : List Char} (h : pyIsNumeric l = true) :
    pyInt l = some ((pyIntVal l : Nat) : Int) := by
  cases l with
  | nil => simp [pyIsNumeric] at h
  | cons c rest =>
    have hc : c.isDigit = true :=
      allDigitsB_mem (pyIsNumeric_digits h) (List.mem_cons_self c rest)
    have hplus : ¬c = '+' := by rintro rfl; simp [Char.isDigit] at hc
    have hminus : ¬c = '-' := by rintro rfl; simp [Char.isDigit] at hc
    simp [pyInt, if_neg hplus, if_neg hminus, h]

/-! ## Helper lemmas: token extraction -/

theorem takeWhile_until_space : ∀ (a b : List Char), ' ' ∉ a →
    (a ++ ' ' :: b).takeWhile (fun c => c != ' ') = a := by
  intro a
  induction a with
  | nil => intro b _; simp [List.takeWhile]
  | cons x xs ih =>
    intro b hx
    have hxc : ¬x = ' ' := fun h => hx (h ▸ List.mem_cons_self x xs)
    have hxs : ' ' ∉ xs := fun h => hx (List.mem_cons_of_mem x h)
    simp only [List.cons_append, List.takeWhile_cons]
    rw [if_pos (by simpa using hxc)]
    rw [ih b hxs]

theorem dropWhile_until_space : ∀ (a b : List Char), ' ' ∉ a →
    (a ++ ' ' :: b).dropWhile (fun c => c != ' ') = ' ' :: b := by
  intro a
  induction a with
  | nil => intro b _; simp [List.dropWhile]
  | cons x xs ih =>
    intro b hx
    have hxc : ¬x = ' ' := fun h => hx (h ▸ List.mem_cons_self x xs)
    have hxs : ' ' ∉ xs := fun h => hx (List.mem_cons_of_mem x h)
    simp only [List.cons_append, List.dropWhile_cons]
    rw [if_pos (by simpa using hxc)]
    exact ih b hxs

/-! ## Helper lemmas: characters of rendered components -/

theorem all_of_digits {l : List Char} (h : allDigitsB l = true) (p : Char → Bool)
    (hp : ∀ c, c.isDigit = true → p c = true) : l.all p = true := by
  simp only [allDigitsB, List.all_eq_true] at *
  exact fun x hx => hp x (h x hx)

theorem all_ne_space_of_not_mem {l : List Char} (h : ' ' ∉ l) :
    l.all (fun c => c != ' ') = true := by
  simp only [List.all_eq_true, bne_iff_ne, ne_eq]
  intro x hx heq
  exact h (heq ▸ hx)

theorem not_mem_space_of_all {l : List Char}
    (h : l.all (fun c => c != ' ') = true) : ' ' ∉ l := by
  simp only [List.all_eq_true, bne_iff_ne, ne_eq] at h
  intro hx
  exact h ' ' hx rfl

theorem digit_ne_space : ∀ c : Char, c.isDigit = true → (c != ' ') = true := by
  intro c hc
  simp only [bne_iff_ne, ne_eq]
  rintro rfl
  exact absurd hc (by decide)

theorem renderTimestamp_all_ne_space (t : Timestamp) :
    (renderTimestamp t).all (fun c => c != ' ') = true := by
  have hy := all_of_digits (allDigitsB_natChars t.year) _ digit_ne_space
  have hmo := all_of_digits (allDigitsB_pad 2 t.month) _ digit_ne_space
  have hd := all_of_digits (allDigitsB_pad 2 t.day) _ digit_ne_space
  have hh := all_of_digits (allDigitsB_pad 2 t.hour) _ digit_ne_space
  have hmi := all_of_digits (allDigitsB_pad 2 t.minute) _ digit_ne_space
  have hs := all_of_digits (allDigitsB_pad 2 t.second) _ digit_ne_space
  have hns := all_of_digits (allDigitsB_pad 9 t.nanosecond) _ digit_ne_space
  simp [renderTimestamp, List.all_append, hy, hmo, hd, hh, hmi, hs, hns]

theorem space_not_mem_renderTimestamp (t : Timestamp) : ' ' ∉ renderTimestamp t :=
  not_mem_space_of_all (renderTimestamp_all_ne_space t)

theorem colon_not_mem_levelName (s : Severity) : ':' ∉ levelName s := by
  cases s <;> decide

theorem levelName_all_ne_space (s : Severity) :
    (levelName s).all (fun c => c != ' ') = true := by
  cases s <;> decide

theorem renderTag_all_ne_space {r : LogRecord} (cfg : ToggleConfig)
    (hid : ' ' ∉ r.instance_id) (hth : ' ' ∉ r.thread_name) (hf : ' ' ∉ r.file) :
    (renderTag r cfg).all (fun c => c != ' ') = true := by
  have h1 := all_ne_space_of_not_mem hid
  have h2 := all_ne_space_of_not_mem hth
  have h3 := all_ne_space_of_not_mem hf
  have h4 := levelName_all_ne_space r.severity
  have h5 := all_of_digits (allDigitsB_natChars r.line) _ digit_ne_space
  cases cfg with
  | mk sl so =>
    cases sl <;> cases so <;>
      simp [renderTag, List.all_append, h1, h2, h3, h4, h5]

theorem space_not_mem_renderTag {r : LogRecord} {cfg : ToggleConfig}
    (hid : ' ' ∉ r.instance_id) (hth : ' ' ∉ r.thread_name) (hf : ' ' ∉ r.file) :
    ' ' ∉ renderTag r cfg :=
  not_mem_space_of_all (renderTag_all_ne_space cfg hid hth hf)

/-! ## Helper lemmas: splitting the rendered timestamp -/

theorem not_mem_app {c : Char} {a b : List Char} (ha : c ∉ a) (hb : c ∉ b) :
    c ∉ a ++ b := fun h => (List.mem_append.mp h).elim ha hb

theorem not_mem_cons_of {c x : Char} {l : List Char} (hx : ¬c = x) (hl : c ∉ l) :
    c ∉ x :: l := fun h => (List.mem_cons.mp h).elim hx hl

theorem rts_splitT (t : Timestamp) :
    pySplitC 'T' (renderTimestamp t) =
      [natChars t.year ++ '-' :: (pad 2 t.month ++ '-' :: pad 2 t.day),
       pad 2 t.hour ++ ':' :: (pad 2 t.minute ++ ':' :: (pad 2 t.second ++ '.' :: pad 9 t.nanosecond))] := by
  have hd : 'T' ∉ natChars t.year ++ '-' :: (pad 2 t.month ++ '-' :: pad 2 t.day) :=
    not_mem_app (not_mem_of_digits (allDigitsB_natChars _) (by decide))
      (not_mem_cons_of (by decide)
        (not_mem_app (not_mem_of_digits (allDigitsB_pad _ _) (by decide))
          (not_mem_cons_of (by decide) (not_mem_of_digits (allDigitsB_pad _ _) (by decide)))))
  have ht : 'T' ∉ pad 2 t.hour ++ ':' :: (pad 2 t.minute ++ ':' :: (pad 2 t.second ++ '.' :: pad 9 t.nanosecond)) :=
    not_mem_app (not_mem_of_digits (allDigitsB_pad _ _) (by decide))
      (not_mem_cons_of (by decide)
        (not_mem_app (not_mem_of_digits (allDigitsB_pad _ _) (by decide))
          (not_mem_cons_of (by decide)
            (not_mem_app (not_mem_of_digits (allDigitsB_pad _ _) (by decide))
              (not_mem_cons_of (by decide) (not_mem_of_digits (allDigitsB_pad _ _) (by decide)))))))
  have hre : renderTimestamp t =
      (natChars t.year ++ '-' :: (pad 2 t.month ++ '-' :: pad 2 t.day)) ++
      'T' :: (pad 2 t.hour ++ ':' :: (pad 2 t.minute ++ ':' :: (pad 2 t.second ++ '.' :: pad 9 t.nanosecond))) := by
    simp [renderTimestamp, List.append_assoc]
  rw [hre, pySplitC_app _ hd, pySplitC_no ht]

theorem rts_splitDate (t : Timestamp) :
    pySplitC '-' (natChars t.year ++ '-' :: (pad 2 t.month ++ '-' :: pad 2 t.day)) =
      [natChars t.year, pad 2 t.month, pad 2 t.day] := by
  rw [pySplitC_app _ (not_mem_of_digits (allDigitsB_natChars _) (by decide)),
      pySplitC_app _ (not_mem_of_digits (allDigitsB_pad _ _) (by decide)),
      pySplitC_no (not_mem_of_digits (allDigitsB_pad _ _) (by decide))]

theorem rts_splitTime (t : Timestamp) :
    pySplitC ':' (pad 2 t.hour ++ ':' :: (pad 2 t.minute ++ ':' :: (pad 2 t.second ++ '.' :: pad 9 t.nanosecond))) =
      [pad 2 t.hour, pad 2 t.minute, pad 2 t.second ++ '.' :: pad 9 t.nanosecond] := by
  have hs : ':' ∉ pad 2 t.second ++ '.' :: pad 9 t.nanosecond :=
    not_mem_app (not_mem_of_digits (allDigitsB_pad _ _) (by decide))
      (not_mem_cons_of (by decide) (not_mem_of_digits (allDigitsB_pad _ _) (by decide)))
  rw [pySplitC_app _ (not_mem_of_digits (allDigitsB_pad _ _) (by decide)),
      pySplitC_app _ (not_mem_of_digits (allDigitsB_pad _ _) (by decide)),
      pySplitC_no hs]

theorem rts_splitSecs (t : Timestamp) :
    pySplitC '.' (pad 2 t.second ++ '.' :: pad 9 t.nanosecond) =
      [pad 2 t.second, pad 9 t.nanosecond] := by
  rw [pySplitC_app _ (not_mem_of_digits (allDigitsB_pad _ _) (by decide)),
      pySplitC_no (not_mem_of_digits (allDigitsB_pad _ _) (by decide))]

theorem pad_length_of_lt {n : Nat} {k : Nat} (h : n < 10 ^ k) (hk : 0 < k) :
    (pad k n).length = k := pad_length (natChars_length_le h hk)

theorem tsOfTok_render (t : Timestamp) (hw : t.widthsOK) :
    tsOfTok (renderTimestamp t) = some t := by
  obtain ⟨h1, h2, h3, h4, h5, h6⟩ := hw
  have l1 : (pad 2 t.month).length = 2 :=
    pad_length_of_lt (by norm_num; exact h1) (by norm_num)
  have l2 : (pad 2 t.day).length = 2 :=
    pad_length_of_lt (by norm_num; exact h2) (by norm_num)
  have l3 : (pad 2 t.hour).length = 2 :=
    pad_length_of_lt (by norm_num; exact h3) (by norm_num)
  have l4 : (pad 2 t.minute).length = 2 :=
    pad_length_of_lt (by norm_num; exact h4) (by norm_num)
  have l5 : (pad 2 t.second).length = 2 :=
    pad_length_of_lt (by norm_num; exact h5) (by norm_num)
  have l6 : (pad 9 t.nanosecond).length = 9 :=
    pad_length_of_lt (by norm_num; exact h6) (by norm_num)
  simp only [tsOfTok, rts_splitT t, rts_splitDate t, rts_splitTime t, rts_splitSecs t]
  rw [if_pos ⟨pyIsNumeric_natChars _, l1, pyIsNumeric_pad _ _, l2, pyIsNumeric_pad _ _,
      l3, pyIsNumeric_pad _ _, l4, pyIsNumeric_pad _ _, l5, pyIsNumeric_pad _ _,
      l6, pyIsNumeric_pad _ _⟩]
  simp only [pyIntVal_natChars, pyIntVal_pad]

theorem fdiv_cast_1000 (n : Nat) :
    Int.fdiv (n : Int) 1000 = ((n / 1000 : Nat) : Int) := by
  cases n <;> rfl

theorem valid_widthsOK {t : Timestamp} (h : t.valid) : t.widthsOK := by
  obtain ⟨_, _, _, h4, _, h6, h7, h8, h9, h10⟩ := h
  have h31 : pyDaysInMonth (t.year : Int) (t.month : Int) ≤ 31 := by
    unfold pyDaysInMonth
    split
    · split <;> norm_num
    · split <;> norm_num
  have hdn : t.day ≤ 31 := by exact_mod_cast le_trans h6 h31
  exact ⟨by omega, by omega, by omega, by omega, by omega, by omega⟩

theorem logTimeOf_render (t : Timestamp) (hv : t.valid) :
    logTimeOf (renderTimestamp t) = some (tsToDT t) := by
  have hw := valid_widthsOK hv
  obtain ⟨w1, w2, w3, w4, w5, w6⟩ := hw
  obtain ⟨v1, v2, v3, v4, v5, v6, v7, v8, v9, v10⟩ := hv
  have l1 : (pad 2 t.month).length = 2 :=
    pad_length_of_lt (by norm_num; exact w1) (by norm_num)
  have l2 : (pad 2 t.day).length = 2 :=
    pad_length_of_lt (by norm_num; exact w2) (by norm_num)
  have l3 : (pad 2 t.hour).length = 2 :=
    pad_length_of_lt (by norm_num; exact w3) (by norm_num)
  have l4 : (pad 2 t.minute).length = 2 :=
    pad_length_of_lt (by norm_num; exact w4) (by norm_num)
  have l5 : (pad 2 t.second).length = 2 :=
    pad_length_of_lt (by norm_num; exact w5) (by norm_num)
  have l6 : (pad 9 t.nanosecond).length = 9 :=
    pad_length_of_lt (by norm_num; exact w6) (by norm_num)
  simp only [logTimeOf, rts_splitT t, rts_splitDate t, rts_splitTime t, rts_splitSecs t]
  rw [if_pos ⟨l1, l2⟩, if_pos ⟨l3, l4, l5, l6⟩]
  rw [pyInt_of_numeric (pyIsNumeric_natChars _), pyInt_of_numeric (pyIsNumeric_pad _ _),
      pyInt_of_numeric (pyIsNumeric_pad _ _), pyInt_of_numeric (pyIsNumeric_pad _ _),
      pyInt_of_numeric (pyIsNumeric_pad _ _), pyInt_of_numeric (pyIsNumeric_pad _ _),
      pyInt_of_numeric (pyIsNumeric_pad _ _)]
  simp only [pyIntVal_natChars, pyIntVal_pad]
  rw [fdiv_cast_1000]
  unfold pyDatetime
  rw [if_pos]
  · simp [tsToDT, fdiv_cast_1000]
  · have hus : t.nanosecond / 1000 ≤ 999999 := by
      have h1 : t.nanosecond / 1000 ≤ 999999999 / 1000 := Nat.div_le_div_right v10
      simpa using h1
    refine ⟨by exact_mod_cast v1, by exact_mod_cast v2, by exact_mod_cast v3,
            by exact_mod_cast v4, by exact_mod_cast v5, v6,
            by positivity, by exact_mod_cast v7, by positivity, by exact_mod_cast v8,
            by positivity, by exact_mod_cast v9, by positivity, by exact_mod_cast hus⟩

theorem digitForm_render (t : Timestamp) (hw : t.widthsOK) :
    timestampDigitForm (renderTimestamp t) = true := by
  obtain ⟨h1, h2, h3, h4, h5, h6⟩ := hw
  have l1 : (pad 2 t.month).length = 2 :=
    pad_length_of_lt (by norm_num; exact h1) (by norm_num)
  have l2 : (pad 2 t.day).length = 2 :=
    pad_length_of_lt (by norm_num; exact h2) (by norm_num)
  have l3 : (pad 2 t.hour).length = 2 :=
    pad_length_of_lt (by norm_num; exact h3) (by norm_num)
  have l4 : (pad 2 t.minute).length = 2 :=
    pad_length_of_lt (by norm_num; exact h4) (by norm_num)
  have l5 : (pad 2 t.second).length = 2 :=
    pad_length_of_lt (by norm_num; exact h5) (by norm_num)
  have l6 : (pad 9 t.nanosecond).length = 9 :=
    pad_length_of_lt (by norm_num; exact h6) (by norm_num)
  simp only [timestampDigitForm, rts_splitT t, rts_splitDate t, rts_splitTime t, rts_splitSecs t]
  simp [l1, l2, l3, l4, l5, l6, pyIsNumeric_pad, pyIsNumeric_natChars]

theorem widthForm_of_logTimeOf {tok : List Char} {dt : PyDatetime}
    (h : logTimeOf tok = some dt) : timestampWidthForm tok = true := by
  unfold logTimeOf at h
  unfold timestampWidthForm
  rcases hT : pySplitC 'T' tok with _ | ⟨date, _ | ⟨time, _ | ⟨x1, r1⟩⟩⟩ <;>
    rw [hT] at h <;> try simp at h
  rcases hD : pySplitC '-' date with _ | ⟨year, _ | ⟨month, _ | ⟨day, _ | ⟨x2, r2⟩⟩⟩⟩ <;>
    rw [hD] at h <;> try simp at h
  obtain ⟨⟨hm2, hd2⟩, h⟩ := h
  rcases hTi : pySplitC ':' time with _ | ⟨hour, _ | ⟨minute, _ | ⟨secs, _ | ⟨x3, r3⟩⟩⟩⟩ <;>
    rw [hTi] at h <;> try simp at h
  rcases hS : pySplitC '.' secs with _ | ⟨second, _ | ⟨nanosecond, _ | ⟨x4, r4⟩⟩⟩ <;>
    rw [hS] at h <;> try simp at h
  obtain ⟨⟨hh2, hmi2, hs2, hns9⟩, h⟩ := h
  simp [hD, hTi, hS, hm2, hd2, hh2, hmi2, hs2, hns9]

/-! ## Helper lemmas: the rendered tag -/

theorem renderTag_inner (r : LogRecord) (cfg : ToggleConfig) :
    renderTag r cfg = '[' :: (joinC (tagFields r cfg) ++ [']']) := by
  cases cfg with
  | mk sl so =>
    cases sl <;> cases so <;>
      simp [renderTag, tagFields, joinC, List.append_assoc]

theorem pySlice_renderTag (r : LogRecord) (cfg : ToggleConfig) :
    pySlice1m1 (renderTag r cfg) = joinC (tagFields r cfg) := by
  rw [renderTag_inner]
  simp [pySlice1m1, List.dropLast_concat]

theorem tagFields_no_colon {r : LogRecord} (cfg : ToggleConfig)
    (hid : ':' ∉ r.instance_id) (hth : ':' ∉ r.thread_name) (hf : ':' ∉ r.file) :
    ∀ f ∈ tagFields r cfg, ':' ∉ f := by
  intro f hmem
  cases cfg with
  | mk sl so =>
    cases sl <;> cases so <;> simp [tagFields] at hmem <;>
      rcases hmem with rfl | rfl | rfl | rfl | rfl <;>
        first
        | exact hid
        | exact hth
        | exact hf
        | exact colon_not_mem_levelName r.severity
        | exact not_mem_of_digits (allDigitsB_natChars r.line) (by decide)

theorem splitC_tagFields {r : LogRecord} (cfg : ToggleConfig)
    (hid : ':' ∉ r.instance_id) (hth : ':' ∉ r.thread_name) (hf : ':' ∉ r.file) :
    pySplitC ':' (pySlice1m1 (renderTag r cfg)) = tagFields r cfg := by
  rw [pySlice_renderTag]
  exact pySplitC_joinC _ (by simp [tagFields]) (tagFields_no_colon cfg hid hth hf)

theorem levelOfName_levelName (s : Severity) : levelOfName (levelName s) = some s := by
  cases s <;> decide

theorem parseTag_render (r : LogRecord) (cfg : ToggleConfig)
    (hid : ':' ∉ r.instance_id) (hth : ':' ∉ r.thread_name) (hf : ':' ∉ r.file) :
    parseTag cfg (renderTag r cfg) =
      some (r.instance_id, r.thread_name,
            if cfg.show_level then some r.severity else none,
            if cfg.show_origin then some (r.file, r.line) else none) := by
  have hjoin : pySplitC ':' (joinC (tagFields r cfg)) = tagFields r cfg := by
    have := splitC_tagFields cfg hid hth hf
    rwa [pySlice_renderTag] at this
  rw [renderTag_inner]
  simp only [parseTag, List.getLast?_concat, if_pos rfl, List.dropLast_concat, hjoin]
  cases cfg with
  | mk sl so =>
    cases sl <;> cases so <;>
      simp [tagFields, parseOriginFields, levelOfName_levelName,
        pyIsNumeric_natChars, pyIntVal_natChars]

/-! ## Claim C6 -/

/-- C6: for every valid tuple of severity, origin, message and toggle
configuration, parsing the rendering of the corresponding record under that
configuration returns the original record, restricted to the fields that the
configuration renders: `Parse(Render(record, config), config) == record`.
Validity asks that the timestamp components fit their rendered widths, that
the free-form fields contain no colon and no space, and that the record's
timestamp does not lie in the future of the observation instant. -/
theorem c6_parse_render_round_trip (r : LogRecord) (cfg : ToggleConfig) (now : PyDatetime)
    (hw : r.ts.widthsOK)
    (hid1 : ':' ∉ r.instance_id) (hid2 : ' ' ∉ r.instance_id)
    (hth1 : ':' ∉ r.thread_name) (hth2 : ' ' ∉ r.thread_name)
    (hf1 : ':' ∉ r.file) (hf2 : ' ' ∉ r.file)
    (hnow : dtLe (tsToDT r.ts) now = true) :
    parse cfg now (render r cfg) = some (restrict r cfg) := by
  have hts := space_not_mem_renderTimestamp r.ts
  have htag : ' ' ∉ renderTag r cfg := space_not_mem_renderTag hid2 hth2 hf2
  have h1 : (render r cfg).takeWhile (fun c => c != ' ') = renderTimestamp r.ts := by
    unfold render
    exact takeWhile_until_space _ _ hts
  have h2 : (render r cfg).dropWhile (fun c => c != ' ') =
      ' ' :: (renderTag r cfg ++ ' ' :: r.message) := by
    unfold render
    exact dropWhile_until_space _ _ hts
  have h3 : (renderTag r cfg ++ ' ' :: r.message).takeWhile (fun c => c != ' ') =
      renderTag r cfg := takeWhile_until_space _ _ htag
  have h4 : (renderTag r cfg ++ ' ' :: r.message).dropWhile (fun c => c != ' ') =
      ' ' :: r.message := dropWhile_until_space _ _ htag
  unfold parse
  rw [h1, tsOfTok_render r.ts hw]
  simp only [hnow, if_true, h2, h3, h4, parseTag_render r cfg hid1 hth1 hf1,
    List.drop_succ_cons, List.drop_zero, restrict]

/-- C6 witness: a concrete record, configuration and observation instant for
which the round trip is exact. -/
theorem c6_witness :
    parse ⟨true, true⟩ now0 (render rec0 ⟨true, true⟩) = some (restrict rec0 ⟨true, true⟩) :=
  c6_parse_render_round_trip rec0 ⟨true, true⟩ now0
    ⟨by decide, by decide, by decide, by decide, by decide, by decide⟩
    (by decide) (by decide) (by decide) (by decide) (by decide) (by decide) (by decide)

/-! ## Claim C1 -/

/-- C1: for all severities S and thresholds T, `IsEnabled(S, T)` holds iff
`rank(S) ≤ rank(T)` with ranks ERROR=0, WARN=1, INFO=2, DEBUG=3, TRACE=4
(the ranks being exactly the `LOG_LEVELS` table of the sources);
consequently every line rendered with `show_level` enabled into a sink
configured with threshold T comes from a record whose severity rank is at
most `rank(T)`. -/
theorem c1_threshold_monotonicity :
    (∀ S T : Severity, IsEnabled S T = true ↔ rank S ≤ rank T) ∧
    (∀ S : Severity, logLevelsLookup (levelName S) = some (rank S)) ∧
    (∀ (T : Severity) (cfg : ToggleConfig) (rs : List LogRecord) (line : List Char),
      cfg.show_level = true → line ∈ emittedLines T cfg rs →
      ∃ rec, rec ∈ rs ∧ line = render rec cfg ∧ rank rec.severity ≤ rank T) := by
  refine ⟨fun S T => by simp [IsEnabled], fun S => by cases S <;> rfl, ?_⟩
  intro T cfg rs line _ hm
  simp only [emittedLines, List.mem_map] at hm
  obtain ⟨rec, hrec, rfl⟩ := hm
  rw [List.mem_filter] at hrec
  refine ⟨rec, hrec.1, rfl, ?_⟩
  simpa [IsEnabled] using hrec.2

/-- C1 witness: an INFO record emitted at threshold INFO. -/
theorem c1_witness :
    ∃ rec, rec ∈ [rec0] ∧ render rec0 ⟨true, true⟩ = render rec ⟨true, true⟩ ∧
      rank rec.severity ≤ rank Severity.INFO :=
  c1_threshold_monotonicity.2.2 Severity.INFO ⟨true, true⟩ [rec0]
    (render rec0 ⟨true, true⟩) rfl (by decide)

/-! ## Claim C2 -/

/-- C2 is false as stated: with both toggles enabled the bracketed tag of a
rendered line has five colon-separated fields (`instance_id`, `thread_name`,
`LEVEL`, `file`, `line`), not "exactly 2, 3, or 4". -/
theorem c2_counterexample :
    (pySplitC ':' (pySlice1m1 (renderTag rec0 ⟨true, true⟩))).length = 5 ∧
    ¬((pySplitC ':' (pySlice1m1 (renderTag rec0 ⟨true, true⟩))).length = 2 ∨
      (pySplitC ':' (pySlice1m1 (renderTag rec0 ⟨true, true⟩))).length = 3 ∨
      (pySplitC ':' (pySlice1m1 (renderTag rec0 ⟨true, true⟩))).length = 4) := by decide

/-- C2 (amended): the tag's colon-separated fields are, in this exact order,
`instance_id`, `thread_name`, then the upper-case level name iff
`show_level`, then `file` and `line` iff `show_origin`; the field count is
`2 + (1 if show_level) + (2 if show_origin)`, i.e. exactly 2, 3, 4 or 5
(5 when both toggles are enabled), and `thread_name` is the second field in
all four combinations. -/
theorem c2_tag_fields (r : LogRecord) (cfg : ToggleConfig)
    (hid : ':' ∉ r.instance_id) (hth : ':' ∉ r.thread_name) (hf : ':' ∉ r.file) :
    pySplitC ':' (pySlice1m1 (renderTag r cfg)) =
      [r.instance_id, r.thread_name]
        ++ (if cfg.show_level then [levelName r.severity] else [])
        ++ (if cfg.show_origin then [r.file, natChars r.line] else []) ∧
    (pySplitC ':' (pySlice1m1 (renderTag r cfg))).length =
      2 + (if cfg.show_level then 1 else 0) + (if cfg.show_origin then 2 else 0) ∧
    (pySplitC ':' (pySlice1m1 (renderTag r cfg))).get? 1 = some r.thread_name := by
  have h := splitC_tagFields cfg hid hth hf
  refine ⟨by rw [h]; rfl, ?_, ?_⟩ <;> rw [h] <;>
    (cases cfg with
     | mk sl so => cases sl <;> cases so <;> simp [tagFields])

/-- C2 witness: the field list of a concrete record with level shown and
origin hidden. -/
theorem c2_witness :
    (pySplitC ':' (pySlice1m1 (renderTag rec0 ⟨true, false⟩))).get? 1 =
      some rec0.thread_name :=
  (c2_tag_fields rec0 ⟨true, false⟩ (by decide) (by decide) (by decide)).2.2

/-! ## Claim C3 -/

/-- C3 is false as stated: the timestamp token `2023-+1-19T12:10:54.123456789`
does not split into components with the exact digit widths (its month
component `+1` is not two digits), yet a line carrying it passes
`check_log_message_format` without any error, because the checker asserts
character widths only and Python's `int` accepts the signed component. -/
theorem c3_counterexample :
    check_log_message_format now0 (chars "2023-+1-19T12:10:54.123456789 [b:t] x")
      (chars "b") (chars "Info") false false = true ∧
    timestampDigitForm (chars "2023-+1-19T12:10:54.123456789") = false ∧
    timestampWidthForm (chars "2023-+1-19T12:10:54.123456789") = true := by decide

/-- C3 (amended): every rendered timestamp has the form
`YYYY-MM-DDTHH:MM:SS.NNNNNNNNN` with all-digit components of the stated
widths (month, day, hour, minute, second two digits, fractional seconds nine
digits, no timezone suffix); and a parse reports a FormatError for any
timestamp token that does not split into these components with these exact
character widths.  The width check counts characters rather than digits: a
component of the right width whose content is a signed integer, such as
month `+1`, is also accepted. -/
theorem c3_timestamp_grammar :
    (∀ (t : Timestamp) (now : PyDatetime), t.valid → dtLe (tsToDT t) now = true →
      timestampDigitForm (renderTimestamp t) = true ∧
      checkTimestamp now (renderTimestamp t) = true) ∧
    (∀ (now : PyDatetime) (tok : List Char), checkTimestamp now tok = true →
      timestampWidthForm tok = true) := by
  constructor
  · intro t now hv hle
    exact ⟨digitForm_render t (valid_widthsOK hv),
           by simp [checkTimestamp, logTimeOf_render t hv, hle]⟩
  · intro now tok h
    unfold checkTimestamp at h
    cases hL : logTimeOf tok with
    | none => rw [hL] at h; exact absurd h (by simp)
    | some dt => exact widthForm_of_logTimeOf hL

/-- C3 witness: the rendered sample timestamp has the digit form, and a
token accepted by the checker has the width form. -/
theorem c3_witness :
    timestampDigitForm (renderTimestamp ts0) = true ∧
    timestampWidthForm (chars "2023-07-19T12:10:54.123456789") = true :=
  ⟨(c3_timestamp_grammar.1 ts0 now0
      ⟨by decide, by decide, by decide, by decide, by decide, by decide, by decide,
       by decide, by decide, by decide⟩ (by decide)).1,
   c3_timestamp_grammar.2 now0 (chars "2023-07-19T12:10:54.123456789") (by decide)⟩

/-! ## Claim C7 -/

/-- C7: a rendered log line carries the record's own timestamp, which parses
back to the record's instant and is accepted exactly when it does not exceed
the observation instant; and the checker reports a FormatError for any line
whose parsed timestamp lies strictly in the future of the observation
instant. -/
theorem c7_timestamp_le_now :
    (∀ (t : Timestamp) (now : PyDatetime), t.valid → dtLe (tsToDT t) now = true →
      logTimeOf (renderTimestamp t) = some (tsToDT t) ∧
      dtLe (tsToDT t) now = true ∧
      checkTimestamp now (renderTimestamp t) = true) ∧
    (∀ (tok : List Char) (now dt : PyDatetime), logTimeOf tok = some dt →
      dtLe dt now = false → checkTimestamp now tok = false) := by
  constructor
  · intro t now hv hle
    exact ⟨logTimeOf_render t hv, hle,
           by simp [checkTimestamp, logTimeOf_render t hv, hle]⟩
  · intro tok now dt hp hf
    simp [checkTimestamp, hp, hf]

/-- C7 witness: the sample timestamp passes against a later instant, and a
token parsing to a strictly-future instant is rejected. -/
theorem c7_witness :
    checkTimestamp now0 (renderTimestamp ts0) = true ∧
    checkTimestamp now0 (chars "2025-01-01T00:00:00.000000000") = false :=
  ⟨(c7_timestamp_le_now.1 ts0 now0
      ⟨by decide, by decide, by decide, by decide, by decide, by decide, by decide,
       by decide, by decide, by decide⟩ (by decide)).2.2,
   c7_timestamp_le_now.2 (chars "2025-01-01T00:00:00.000000000") now0
     ⟨2025, 1, 1, 0, 0, 0, 0⟩ (by decide) (by decide)⟩

/-! ## Claim C8 -/

/-- C8 is false as stated: this line's second whitespace token `ab:t]` is
missing the opening bracket, yet `check_log_message_format` succeeds,
because the checker slices off the token's first and last characters without
ever verifying they are brackets. -/
theorem c8_counterexample :
    check_log_message_format now0 (chars "2023-07-19T12:10:54.123456789 ab:t] hello")
      (chars "b") (chars "Info") false false = true ∧
    (pyWSplit (chars "2023-07-19T12:10:54.123456789 ab:t] hello")).get? 1 =
      some (chars "ab:t]") ∧
    (chars "ab:t]").head? ≠ some '[' := by decide

/-- C8 (amended): the checker strips the first and last characters of the tag
token unconditionally, without checking that they are brackets - its verdict
depends only on the token's interior, so a missing bracket is never reported
as such; a bracketless line is rejected only when the remaining positional
field checks fail. -/
theorem c8_tag_brackets_not_checked (instance_id log_level : List Char)
    (show_level show_origin : Bool) (a b : Char) (inner : List Char) :
    checkTag instance_id log_level show_level show_origin (a :: (inner ++ [b])) =
      checkTag instance_id log_level show_level show_origin ('[' :: (inner ++ [']'])) := by
  unfold checkTag
  simp [pySlice1m1, List.dropLast_concat]

/-! ## Claim C9 -/

/-- C9: the format check never inspects the message portion of a line - for
every line whose first two whitespace-separated tokens satisfy the timestamp
and tag checks, `check_log_message_format` succeeds regardless of the
remaining tokens, including when the message is entirely absent. -/
theorem c9_message_not_inspected (now : PyDatetime) (instance_id log_level : List Char)
    (show_level show_origin : Bool) (l ts data : List Char) (rest : List (List Char))
    (hsplit : pyWSplit l = ts :: data :: rest)
    (hts : checkTimestamp now ts = true)
    (htag : checkTag instance_id log_level show_level show_origin data = true) :
    check_log_message_format now l instance_id log_level show_level show_origin = true := by
  unfold check_log_message_format
  rw [hsplit]
  simp [hts, htag]

/-- C9 witness: a line with no message at all passes the check. -/
theorem c9_witness :
    check_log_message_format now0 (chars "2023-07-19T12:10:54.123456789 [b:t]")
      (chars "b") (chars "Info") false false = true :=
  c9_message_not_inspected now0 (chars "b") (chars "Info") false false
    (chars "2023-07-19T12:10:54.123456789 [b:t]")
    (chars "2023-07-19T12:10:54.123456789") (chars "[b:t]") []
    (by decide) (by decide) (by decide)

/-! ## Claim C4 -/

/-- C4: the audit log messages equal the fixed templates - a PUT to `/mmds`
yields exactly `The API server received a Put request on "/mmds".` with no
body fragment (for every body), a GET to `/machine-config` yields exactly
`The API server received a Get request on "/machine-config".`, PUT and PATCH
on `/machine-config` carry the ` with body ` fragment followed by the body,
and an error completion yields
`Received Error. Status code: <code> <reason-phrase>. Message: <fault-message>.` -/
theorem c4_audit_templates (body fault : List Char) :
    auditReceivedMessage .Put (chars "/mmds") body =
      chars "The API server received a Put request on \"/mmds\"." ∧
    auditReceivedMessage .Get (chars "/machine-config") body =
      chars "The API server received a Get request on \"/machine-config\"." ∧
    auditReceivedMessage .Put (chars "/machine-config") body =
      chars "The API server received a Put request on \"/machine-config\" with body " ++
        (body ++ chars ".") ∧
    auditReceivedMessage .Patch (chars "/machine-config") body =
      chars "The API server received a Patch request on \"/machine-config\" with body " ++
        (body ++ chars ".") ∧
    auditErrorMessage 400 (chars "Bad Request") fault =
      chars "Received Error. Status code: 400 Bad Request. Message: " ++
        (fault ++ chars ".") :=
  ⟨rfl, rfl, rfl, rfl, rfl⟩

/-! ## Claim C5 -/

/-- C5: Configure with a non-existent sink path fails deterministically with
an error whose message contains the exact substring
`No such file or directory (os error 2)`, and no configuration call ever
writes a log line to any sink (a successful one leaves the written lines
unchanged; a failing one does not produce a state at all). -/
theorem c5_configure_fail_fast (fs : FileSystem) (st : LoggerState) (path : List Char)
    (threshold : Severity) (sl so : Bool) (h : path ∉ fs.existing) :
    configure fs st path threshold sl so = Except.error noSuchFileMsg ∧
    containsSub noSuchFileMsg noSuchFileMsg ∧
    (∀ (fs2 : FileSystem) (st2 : LoggerState) (p2 : List Char) (t2 : Severity)
       (sl2 so2 : Bool) (st3 : LoggerState),
       configure fs2 st2 p2 t2 sl2 so2 = Except.ok st3 → st3.written = st2.written) := by
  refine ⟨by unfold configure; rw [if_neg h], ⟨[], [], by simp⟩, ?_⟩
  intro fs2 st2 p2 t2 sl2 so2 st3 heq
  unfold configure at heq
  by_cases hp : p2 ∈ fs2.existing
  · rw [if_pos hp] at heq
    injection heq with heq
    rw [← heq]
  · rw [if_neg hp] at heq
    exact absurd heq (by simp)

/-- C5 witness: configuring `invalid log file` against an empty file system. -/
theorem c5_witness :
    configure ⟨[]⟩ ⟨none, []⟩ (chars "invalid log file") Severity.INFO true true =
      Except.error noSuchFileMsg ∧
    containsSub noSuchFileMsg noSuchFileMsg ∧
    (∀ (fs2 : FileSystem) (st2 : LoggerState) (p2 : List Char) (t2 : Severity)
       (sl2 so2 : Bool) (st3 : LoggerState),
       configure fs2 st2 p2 t2 sl2 so2 = Except.ok st3 → st3.written = st2.written) :=
  c5_configure_fail_fast ⟨[]⟩ ⟨none, []⟩ (chars "invalid log file") Severity.INFO
    true true (by decide)

/-! ## Claim C10 -/

/-- C10: in the devtool build script, `x86_dependencies` and
`aarch64_dependencies` each evaluate to a list with exactly one element
(the comma-less adjacent string literals concatenate), and no element of
either list equals any individual package name such as `clang` or `cmake`. -/
theorem c10_devtool_dependency_lists :
    x86_dependencies.length = 1 ∧
    aarch64_dependencies.length = 1 ∧
    "clang" ∉ x86_dependencies ∧ "cmake" ∉ x86_dependencies ∧
    "clang" ∉ aarch64_dependencies ∧ "cmake" ∉ aarch64_dependencies ∧
    x86_dependencies.all (fun s => !x86_package_names.contains s) = true ∧
    aarch64_dependencies.all (fun s => !aarch64_package_names.contains s) = true := by
  decide

end Firecracker
